import Mathlib

/-!
Verification development for the meilisearch-python-async client library.

The repository sources available are `meilisearch_python_async/client.py`
together with the two document test suites.  The document batching and
task-polling helpers live in `meilisearch_python_async/index.py` and
`meilisearch_python_async/task.py`, which are not among the provided
sources; following the spec, those helpers are modelled here from the
specification's own description of them (each such definition carries a
doc comment starting with "Modelled from the spec:").  Everything taken
from `client.py` is embedded directly from that source.
-/

namespace MeiliSpec

/-- Local (client-side) errors of the library: validation failures and the
polling timeout, as listed by the spec's error-handling section. -/
inductive LocalError where
  | meiliSearchError (msg : String)
  | valueError (msg : String)
  | payloadTooLarge (msg : String)
  | timeoutError (msg : String)
  | invalidKeyError (msg : String)
  | invalidRestriction (msg : String)
  | keyNotFoundError (msg : String)
  deriving DecidableEq, Repr

/-- Modelled from the spec: the fixed-count batching helper of
`meilisearch_python_async/index.py` (the `_batch` generator used by
`add_documents_in_batches` and friends; `index.py` is not under `src/`).
The spec: "given a sequence and ... a fixed item count ..., produce an
ordered sequence of contiguous sub-sequences covering the input exactly
once, each not exceeding the bound"; the Python helper slices
`documents[i : i + batch_size]` for `i in range(0, len(documents), batch_size)`.
A step of `0` is invalid in Python (`range` raises `ValueError`); it is
mapped to an empty result here and excluded by the claims, which only
concern positive batch sizes. -/
def batchDocuments {α : Type} (batchSize : Nat) : List α → List (List α)
  | [] => []
  | d :: ds =>
    if _h : batchSize = 0 then []
    else (d :: ds).take batchSize :: batchDocuments batchSize ((d :: ds).drop batchSize)
termination_by l => l.length
decreasing_by
  simp only [List.length_drop, List.length_cons]
  omega

/-- Modelled from the spec: `Index.add_documents_in_batches` splits the
documents with the batching helper and uploads one chunk per request; the
value of interest for the partition claims is the chunk list. -/
def add_documents_in_batches {α : Type} (documents : List α) (batchSize : Nat) :
    List (List α) :=
  batchDocuments batchSize documents

/-- Modelled from the spec: `Index.update_documents_in_batches` uses the
same batching helper as the add variant. -/
def update_documents_in_batches {α : Type} (documents : List α) (batchSize : Nat) :
    List (List α) :=
  batchDocuments batchSize documents

/-- Modelled from the spec: the auto-batching helper of
`meilisearch_python_async/index.py` (not under `src/`), per the spec:
"greedily accumulate items until a serialized-size threshold is exceeded
and raise an error if a single item already exceeds it".  Serialization is
abstracted by the item-size function `sz`; a batch's serialized size is
the sum of its items' sizes.  `cur` is the batch being accumulated and
`curSize` its running size. -/
def autoBatchAux {α : Type} (sz : α → Nat) (bound : Nat) :
    List α → List α → Nat → Except LocalError (List (List α))
  | [], cur, _ => .ok (if cur.isEmpty then [] else [cur])
  | d :: ds, cur, curSize =>
    if bound < sz d then
      .error (.payloadTooLarge "The payload size is larger than the max payload size")
    else if bound < curSize + sz d then
      match autoBatchAux sz bound ds [d] (sz d) with
      | .error e => .error e
      | .ok rest => .ok (cur :: rest)
    else autoBatchAux sz bound ds (cur ++ [d]) (curSize + sz d)

/-- Modelled from the spec: entry point of the auto-batching helper,
starting from an empty accumulating batch. -/
def autoBatch {α : Type} (sz : α → Nat) (bound : Nat) (documents : List α) :
    Except LocalError (List (List α)) :=
  autoBatchAux sz bound documents [] 0

/-- Modelled from the spec: `Index.add_documents_auto_batch` splits the
documents with the auto-batching helper (one upload per chunk); the chunk
list, or the validation error, is the value of interest. -/
def add_documents_auto_batch {α : Type} (sz : α → Nat) (documents : List α)
    (maxPayloadSize : Nat) : Except LocalError (List (List α)) :=
  autoBatch sz maxPayloadSize documents

/-- Modelled from the spec: `Index.update_documents_auto_batch` uses the
same auto-batching helper as the add variant. -/
def update_documents_auto_batch {α : Type} (sz : α → Nat) (documents : List α)
    (maxPayloadSize : Nat) : Except LocalError (List (List α)) :=
  autoBatch sz maxPayloadSize documents

/-- Characters after the last dot of a character list, `none` when no dot
occurs. -/
def extensionOfChars : List Char → Option (List Char)
  | [] => none
  | c :: cs =>
    match extensionOfChars cs with
    | some ext => some ext
    | none => if c = '.' then some cs else none

/-- Extension of a file path: the part after the last dot, the empty
string when the path has no dot (Python `Path(path).suffix` without the
leading dot). -/
def fileExtension (path : String) : String :=
  match extensionOfChars path.toList with
  | some ext => String.mk ext
  | none => ""

/-- Modelled from the spec: document types accepted by the file-based
document methods (`add_documents_from_file` and friends), per the test
suites: json, csv and ndjson. -/
def supportedExtensions : List String := ["json", "csv", "ndjson"]

/-- Modelled from the spec: document types accepted by the raw-file
document methods (`add_documents_from_raw_file` and friends), per the
test suites: csv and ndjson only. -/
def rawFileExtensions : List String := ["csv", "ndjson"]

/-- Modelled from the spec: `Index.add_documents_from_file_auto_batch`
validates the extension locally, loads the documents and hands them to
the auto-batching helper; `contents` stands for the parsed file. -/
def add_documents_from_file_auto_batch {α : Type} (path : String) (sz : α → Nat)
    (contents : List α) (maxPayloadSize : Nat) : Except LocalError (List (List α)) :=
  if fileExtension path ∈ supportedExtensions then
    autoBatch sz maxPayloadSize contents
  else .error (.meiliSearchError "File must be a json, csv, or ndjson file")

/-- Modelled from the spec: `Index.update_documents_from_file_auto_batch`
behaves as the add variant. -/
def update_documents_from_file_auto_batch {α : Type} (path : String) (sz : α → Nat)
    (contents : List α) (maxPayloadSize : Nat) : Except LocalError (List (List α)) :=
  if fileExtension path ∈ supportedExtensions then
    autoBatch sz maxPayloadSize contents
  else .error (.meiliSearchError "File must be a json, csv, or ndjson file")

/-- Modelled from the spec: `Index.add_documents_from_file` validates the
file extension locally before any request: "local validation failures (bad
file extension, ...)"; the ok value is the single upload payload that
would then be sent, so an error means no request reaches the server. -/
def add_documents_from_file {α : Type} (path : String) (contents : List α) :
    Except LocalError (List α) :=
  if fileExtension path ∈ supportedExtensions then .ok contents
  else .error (.meiliSearchError "File must be a json, csv, or ndjson file")

/-- Modelled from the spec: `Index.update_documents_from_file` validates
the extension as the add variant does. -/
def update_documents_from_file {α : Type} (path : String) (contents : List α) :
    Except LocalError (List α) :=
  if fileExtension path ∈ supportedExtensions then .ok contents
  else .error (.meiliSearchError "File must be a json, csv, or ndjson file")

/-- Modelled from the spec: `Index.add_documents_from_file_in_batches`
validates the extension locally, then chunks the parsed file with the
fixed-count batching helper; the ok value is the chunk list uploaded one
request per chunk. -/
def add_documents_from_file_in_batches {α : Type} (path : String) (contents : List α)
    (batchSize : Nat) : Except LocalError (List (List α)) :=
  if fileExtension path ∈ supportedExtensions then
    .ok (batchDocuments batchSize contents)
  else .error (.meiliSearchError "File must be a json, csv, or ndjson file")

/-- Modelled from the spec: `Index.update_documents_from_file_in_batches`
behaves as the add variant. -/
def update_documents_from_file_in_batches {α : Type} (path : String) (contents : List α)
    (batchSize : Nat) : Except LocalError (List (List α)) :=
  if fileExtension path ∈ supportedExtensions then
    .ok (batchDocuments batchSize contents)
  else .error (.meiliSearchError "File must be a json, csv, or ndjson file")

/-- Modelled from the spec: `Index.add_documents_from_raw_file` accepts
only csv and ndjson files and raises `ValueError` otherwise (per
`test_add_document_raw_file_extension_error`); the ok value is the raw
payload that would be sent. -/
def add_documents_from_raw_file (path : String) (raw : String) :
    Except LocalError String :=
  if fileExtension path ∈ rawFileExtensions then .ok raw
  else .error (.valueError "Only csv and ndjson files can be sent as raw files")

/-- Modelled from the spec: `Index.update_documents_from_raw_file` behaves
as the add variant. -/
def update_documents_from_raw_file (path : String) (raw : String) :
    Except LocalError String :=
  if fileExtension path ∈ rawFileExtensions then .ok raw
  else .error (.valueError "Only csv and ndjson files can be sent as raw files")

/-- Task statuses: `enqueued` and `processing` are non-terminal; the
terminal set is fixed, per the spec "until `succeeded`/`failed`/timeout". -/
inductive TaskStatus where
  | enqueued
  | processing
  | succeeded
  | failed
  deriving DecidableEq, Repr

/-- Whether a task status is terminal. -/
def isTerminal : TaskStatus → Bool
  | .succeeded => true
  | .failed => true
  | _ => false

/-- Modelled from the spec: the polling loop of `wait_for_task` in
`meilisearch_python_async/task.py` (not under `src/`; the older API calls
it `wait_for_pending_update`).  `fetch k` is the status the server reports
to the k-th poll; `fuel` is the number of polls the timeout still allows.
The loop returns the first terminal status it observes together with the
index of the poll that observed it, and reports a timeout failure when the
fuel runs out. -/
def pollLoop (fetch : Nat → TaskStatus) (k : Nat) : Nat → Except LocalError (TaskStatus × Nat)
  | 0 => .error (.timeoutError "timeout of 'timeout_in_ms' has expired")
  | fuel + 1 =>
    if isTerminal (fetch k) then .ok (fetch k, k)
    else pollLoop fetch (k + 1) fuel

/-- Modelled from the spec: the number of polls a timeout allows at a
given polling interval; poll `k` happens once `k * intervalMs` of the
timeout has elapsed, and the loop polls only while the elapsed time is
below `timeoutMs`. -/
def numPolls (timeoutMs intervalMs : Nat) : Nat :=
  (timeoutMs + intervalMs - 1) / intervalMs

/-- Modelled from the spec: `wait_for_task` polls the task's status at the
given interval until a terminal status or the timeout, per the spec
"repeatedly fetch task status until it is one of a fixed set of terminal
values or an overall timeout elapses, at which point report a timeout
failure". -/
def wait_for_task (fetch : Nat → TaskStatus) (timeoutMs intervalMs : Nat) :
    Except LocalError (TaskStatus × Nat) :=
  pollLoop fetch 0 (numPolls timeoutMs intervalMs)

/-- An HTTP event of a batched upload: a request carrying one chunk, or
the server's acknowledgement of that request. -/
inductive UploadEvent (α : Type) where
  | request (chunk : List α)
  | response (taskUid : Nat)
  deriving DecidableEq, Repr

/-- The chunk of a request event. -/
def requestChunk {α : Type} : UploadEvent α → Option (List α)
  | .request c => some c
  | .response _ => none

/-- The transcript of HTTP traffic of one batched call, together with the
server's next task uid. -/
structure Transcript (α : Type) where
  events : List (UploadEvent α)
  nextUid : Nat
  deriving Repr

/-- Modelled from the spec: posting one chunk and awaiting its response —
both events enter the transcript before anything else can happen, since
the call awaits the response. -/
def sendChunk {α : Type} (c : List α) (t : Transcript α) : Nat × Transcript α :=
  (t.nextUid, ⟨t.events ++ [.request c, .response t.nextUid], t.nextUid + 1⟩)

/-- Modelled from the spec: the upload loop of the `_in_batches` methods —
"chunks are uploaded sequentially, not concurrently" — one `sendChunk` per
chunk, in chunk order, each awaited before the next. -/
def uploadChunks {α : Type} : List (List α) → Transcript α → List Nat × Transcript α
  | [], t => ([], t)
  | c :: cs, t =>
    let p := sendChunk c t
    let r := uploadChunks cs p.2
    (p.1 :: r.1, r.2)

/-- Modelled from the spec: a batched document upload chunks the documents
and uploads the chunks through the sequential loop, starting from a given
transcript. -/
def uploadInBatches {α : Type} (documents : List α) (batchSize : Nat) (t : Transcript α) :
    List Nat × Transcript α :=
  uploadChunks (batchDocuments batchSize documents) t

/-- The strictly sequential request/response alternation the spec
describes, one request per chunk in chunk order, each followed by its
response before the next request.  This is the specification-side trace
the upload loop is compared against. -/
def specSequentialTrace {α : Type} (u : Nat) : List (List α) → List (UploadEvent α)
  | [] => []
  | c :: cs => .request c :: .response u :: specSequentialTrace (u + 1) cs

/-- Headers computed by `Client.__init__` (`client.py` lines 39-44): with a
truthy `api_key` — in Python, not `None` and not the empty string — a
Bearer Authorization header is attached; otherwise no headers are passed
to the HTTP client. -/
def clientHeaders (apiKey : Option String) : Option (List (String × String)) :=
  match apiKey with
  | none => none
  | some k => if k = "" then none else some [("Authorization", "Bearer " ++ k)]

/-- The terminal state of a server-side task, as seen by the client after
polling finishes. -/
structure TaskResult where
  status : String
  deriving DecidableEq, Repr

/-- `Client.delete_index_if_exists` (`client.py` lines 112-139): the
delete request is issued, `wait_for_task` awaits the resulting task, and
the method returns `True` exactly when the waited task's status equals
"succeeded", `False` otherwise — it never raises on a non-succeeded
terminal status.  `waited` is the terminal task result the polling
returned. -/
def delete_index_if_exists (waited : TaskResult) : Bool :=
  if waited.status = "succeeded" then true else false

/-- An API key as `generate_tenant_token` consumes it (`client.py`): its
signing secret, its actions, its indexes and its description. -/
structure Key where
  key : String
  actions : List String
  indexes : List String
  description : String
  deriving DecidableEq, Repr

/-- Whether one string occurs inside another, via `String.splitOn`: the
pattern occurs exactly when splitting on it yields more than one part
(Python `pattern in s`). -/
def containsSubstring (s pattern : String) : Bool :=
  (s.splitOn pattern).length != 1

/-- The default-key lookup loop of `generate_tenant_token` (`client.py`
lines 171-177): the first retrieved key whose description contains
"Default Search API Key". -/
def findDefaultSearchKey (keys : List Key) : Option Key :=
  keys.find? fun k => containsSubstring k.description "Default Search API Key"

/-- The payload passed to `generate_tenant_token`; only its "indexes"
entry is inspected locally (`payload.get("indexes")`), so the payload is
modelled as that optional entry. -/
structure TenantTokenPayload where
  indexes : Option (List String)
  deriving DecidableEq, Repr

/-- The JWT produced by `jwt.encode(payload, jwt_key.key, algorithm="HS256")`,
modelled as the signed payload together with the signing secret (the
encoding itself is delegated to a library and out of scope). -/
structure SignedToken where
  payload : TenantTokenPayload
  signingKey : String
  deriving DecidableEq, Repr

/-- The "indexes" restriction check of `generate_tenant_token` (`client.py`
lines 187-192): with a truthy `payload.get("indexes")` — present and
non-empty — every payload index must be among the signing key's indexes,
else `InvalidRestriction` is raised. -/
def checkTokenIndexes (payload : TenantTokenPayload) (jwtKey : Key) :
    Except LocalError SignedToken :=
  match payload.indexes with
  | none => .ok ⟨payload, jwtKey.key⟩
  | some idxs =>
    if idxs.isEmpty then .ok ⟨payload, jwtKey.key⟩
    else if idxs.all fun i => jwtKey.indexes.contains i then .ok ⟨payload, jwtKey.key⟩
    else .error (.invalidRestriction
        "Invalid index. The token cannot be less restrictive than the API key")

/-- `Client.generate_tenant_token` (`client.py` lines 141-194): with an
explicit key, its actions must be exactly ["search"] or `InvalidKeyError`
is raised; with no key, the retrieved keys are searched for a default
search key, and `KeyNotFoundError` is raised when none is found; then the
payload's indexes are checked against the signing key before the token is
signed with that key's secret. -/
def generate_tenant_token (keys : List Key) (payload : TenantTokenPayload)
    (key : Option Key) : Except LocalError SignedToken :=
  match key with
  | some k =>
    if k.actions = ["search"] then checkTokenIndexes payload k
    else .error (.invalidKeyError "Only search keys can be used for tokens")
  | none =>
    match findDefaultSearchKey keys with
    | some jwtKey => checkTokenIndexes payload jwtKey
    | none => .error (.keyNotFoundError "No API search key found")

/-- The index record of the server's response body, as `client.py` reads
it (`uid` and `primaryKey` fields, creation metadata omitted). -/
structure IndexInfo where
  uid : String
  primaryKey : Option String
  deriving DecidableEq, Repr

/-- `Client.get_indexes` (`client.py` lines 196-227): a falsy parsed
response body — the empty list — yields `None`; otherwise one `Index`
object per record.  The body is modelled as the parsed list of index
records. -/
def get_indexes (body : List IndexInfo) : Option (List IndexInfo) :=
  if body.isEmpty then none else some body

/-- `Client.get_raw_indexes` (`client.py` lines 530-555): a falsy parsed
response body yields `None`; otherwise one `IndexInfo` per record. -/
def get_raw_indexes (body : List IndexInfo) : Option (List IndexInfo) :=
  if body.isEmpty then none else some body

/-- `Client.get_raw_index` (`client.py` lines 501-528): a 404 response
yields `None`; otherwise the parsed `IndexInfo` body. -/
def get_raw_index (statusCode : Nat) (body : IndexInfo) : Option IndexInfo :=
  if statusCode = 404 then none else some body

theorem batchDocuments_join {α : Type} (batchSize : Nat) (hb : batchSize ≠ 0) :
    ∀ docs : List α, (batchDocuments batchSize docs).flatten = docs := by
  intro docs
  generalize hn : docs.length = n
  induction n using Nat.strong_induction_on generalizing docs with
  | _ n ih =>
    match docs with
    | [] => simp [batchDocuments]
    | d :: ds =>
      rw [batchDocuments]
      simp only [hb, dif_neg, not_false_iff, List.flatten_cons]
      rw [ih (((d :: ds).drop batchSize).length) ?_ _ rfl, List.take_append_drop]
      subst hn
      simp only [List.length_drop, List.length_cons]
      omega

theorem batchDocuments_length {α : Type} (batchSize : Nat) (hb : batchSize ≠ 0) :
    ∀ docs : List α,
      (batchDocuments batchSize docs).length = (docs.length + batchSize - 1) / batchSize := by
  intro docs
  generalize hn : docs.length = n
  induction n using Nat.strong_induction_on generalizing docs with
  | _ n ih =>
    match docs with
    | [] =>
      subst hn
      simp only [batchDocuments, List.length_nil]
      exact (Nat.div_eq_of_lt (by omega)).symm
    | d :: ds =>
      rw [batchDocuments]
      simp only [hb, dif_neg, not_false_iff, List.length_cons]
      rw [ih (((d :: ds).drop batchSize).length) ?_ _ rfl]
      · subst hn
        simp only [List.length_drop, List.length_cons]
        rw [show ds.length + 1 + batchSize - 1 = (ds.length + 1 - 1) + batchSize by omega,
          Nat.add_div_right _ (Nat.pos_of_ne_zero hb)]
        rcases le_or_lt batchSize (ds.length + 1) with hle | hlt
        · rw [show ds.length + 1 - batchSize + batchSize - 1 = ds.length + 1 - 1 by omega]
        · rw [Nat.div_eq_of_lt
              (show ds.length + 1 - batchSize + batchSize - 1 < batchSize by omega),
            Nat.div_eq_of_lt (show ds.length + 1 - 1 < batchSize by omega)]
      · subst hn
        simp only [List.length_drop, List.length_cons]
        omega

theorem batchDocuments_sizes {α : Type} (batchSize : Nat) (hb : batchSize ≠ 0) :
    ∀ docs : List α, ∀ c ∈ batchDocuments batchSize docs, c.length ≤ batchSize := by
  intro docs
  generalize hn : docs.length = n
  induction n using Nat.strong_induction_on generalizing docs with
  | _ n ih =>
    match docs with
    | [] => simp [batchDocuments]
    | d :: ds =>
      rw [batchDocuments]
      simp only [hb, dif_neg, not_false_iff, List.mem_cons]
      rintro c (rfl | hc)
      · simp only [List.length_take]
        omega
      · exact ih (((d :: ds).drop batchSize).length)
          (by subst hn; simp only [List.length_drop, List.length_cons]; omega) _ rfl c hc

/-- Claim C1: for every document list and positive batch size, the batching
operations partition the input into exactly `ceil(n / batch_size)`
contiguous batches whose concatenation reproduces the original sequence in
order, each batch holding at most `batch_size` documents; the update
variant chunks identically to the add variant, and the
`*_from_file_in_batches` variants produce the same chunks from the parsed
file whenever the extension validation passes. -/
theorem c1_in_batches_partition {α : Type} (documents : List α) (batchSize : Nat)
    (hb : 0 < batchSize) :
    (add_documents_in_batches documents batchSize).length
        = (documents.length + batchSize - 1) / batchSize ∧
    (add_documents_in_batches documents batchSize).flatten = documents ∧
    (∀ c ∈ add_documents_in_batches documents batchSize, c.length ≤ batchSize) ∧
    update_documents_in_batches documents batchSize
        = add_documents_in_batches documents batchSize ∧
    (∀ path, fileExtension path ∈ supportedExtensions →
      add_documents_from_file_in_batches path documents batchSize
          = .ok (add_documents_in_batches documents batchSize) ∧
      update_documents_from_file_in_batches path documents batchSize
          = .ok (add_documents_in_batches documents batchSize)) := by
  refine ⟨?_, ?_, ?_, rfl, ?_⟩
  · exact batchDocuments_length batchSize (Nat.pos_iff_ne_zero.mp hb) documents
  · exact batchDocuments_join batchSize (Nat.pos_iff_ne_zero.mp hb) documents
  · exact batchDocuments_sizes batchSize (Nat.pos_iff_ne_zero.mp hb) documents
  · intro path hpath
    constructor
    · rw [add_documents_from_file_in_batches, if_pos hpath]
      rfl
    · rw [update_documents_from_file_in_batches, if_pos hpath]
      rfl

/-- Witness for C1 at a concrete input: five documents and batch size two
give three batches. -/
theorem c1_in_batches_partition_witness :
    0 < 2 ∧
    ((add_documents_in_batches [10, 20, 30, 40, 50] 2).length = (5 + 2 - 1) / 2 ∧
    (add_documents_in_batches [10, 20, 30, 40, 50] 2).flatten = [10, 20, 30, 40, 50] ∧
    (∀ c ∈ add_documents_in_batches [10, 20, 30, 40, 50] 2, c.length ≤ 2) ∧
    update_documents_in_batches [10, 20, 30, 40, 50] 2
        = add_documents_in_batches [10, 20, 30, 40, 50] 2 ∧
    (∀ path, fileExtension path ∈ supportedExtensions →
      add_documents_from_file_in_batches path [10, 20, 30, 40, 50] 2
          = .ok (add_documents_in_batches [10, 20, 30, 40, 50] 2) ∧
      update_documents_from_file_in_batches path [10, 20, 30, 40, 50] 2
          = .ok (add_documents_in_batches [10, 20, 30, 40, 50] 2))) :=
  ⟨by decide, c1_in_batches_partition [10, 20, 30, 40, 50] 2 (by decide)⟩

theorem autoBatchAux_sizes {α : Type} (sz : α → Nat) (bound : Nat) :
    ∀ (ds cur : List α) (curSize : Nat) (chunks : List (List α)),
      curSize = (cur.map sz).sum → curSize ≤ bound →
      autoBatchAux sz bound ds cur curSize = .ok chunks →
      ∀ c ∈ chunks, (c.map sz).sum ≤ bound := by
  intro ds
  induction ds with
  | nil =>
    intro cur curSize chunks hsz hle h c hc
    rw [autoBatchAux] at h
    cases cur with
    | nil =>
      simp only [List.isEmpty_nil, if_true, Except.ok.injEq] at h
      subst h
      simp at hc
    | cons x xs =>
      simp only [List.isEmpty_cons, Bool.false_eq_true, if_false, Except.ok.injEq] at h
      subst h
      simp only [List.mem_singleton] at hc
      subst hc
      omega
  | cons d ds ih =>
    intro cur curSize chunks hsz hle h c hc
    rw [autoBatchAux] at h
    by_cases h1 : bound < sz d
    · simp [h1] at h
    · simp only [h1, if_false] at h
      by_cases h2 : bound < curSize + sz d
      · simp only [h2, if_true] at h
        cases hrec : autoBatchAux sz bound ds [d] (sz d) with
        | error e => rw [hrec] at h; simp at h
        | ok rest =>
          rw [hrec] at h
          simp only [Except.ok.injEq] at h
          subst h
          rcases List.mem_cons.mp hc with rfl | hc
          · omega
          · exact ih [d] (sz d) rest (by simp) (by omega) hrec c hc
      · simp only [h2, if_false] at h
        exact ih (cur ++ [d]) (curSize + sz d) chunks
          (by simp [hsz]) (by omega) h c hc

theorem autoBatch_sizes {α : Type} (sz : α → Nat) (bound : Nat) (documents : List α)
    (chunks : List (List α)) (h : autoBatch sz bound documents = .ok chunks) :
    ∀ c ∈ chunks, (c.map sz).sum ≤ bound :=
  autoBatchAux_sizes sz bound documents [] 0 chunks rfl (Nat.zero_le bound) h

theorem autoBatchAux_oversized {α : Type} (sz : α → Nat) (bound : Nat) :
    ∀ (ds cur : List α) (curSize : Nat), (∃ d ∈ ds, bound < sz d) →
      autoBatchAux sz bound ds cur curSize
        = .error (.payloadTooLarge "The payload size is larger than the max payload size") := by
  intro ds
  induction ds with
  | nil => intro cur curSize h; simp at h
  | cons d ds ih =>
    intro cur curSize h
    rw [autoBatchAux]
    by_cases h1 : bound < sz d
    · simp [h1]
    · simp only [h1, if_false]
      have hds : ∃ x ∈ ds, bound < sz x := by
        rcases h with ⟨x, hx, hbx⟩
        rcases List.mem_cons.mp hx with rfl | hx
        · omega
        · exact ⟨x, hx, hbx⟩
      by_cases h2 : bound < curSize + sz d
      · simp only [h2, if_true]
        rw [ih [d] (sz d) hds]
      · simp only [h2, if_false]
        exact ih (cur ++ [d]) (curSize + sz d) hds

/-- Claim C2: every chunk produced by the auto-batching operations has
serialized size (sum of item sizes) not exceeding `max_payload_size`,
unless the chunk holds exactly one item; the update variant batches
identically and the file variants produce their chunks the same way. -/
theorem c2_auto_batch_size_bound {α : Type} (sz : α → Nat) (documents : List α)
    (maxPayloadSize : Nat) :
    (∀ chunks, add_documents_auto_batch sz documents maxPayloadSize = .ok chunks →
      ∀ c ∈ chunks, (c.map sz).sum ≤ maxPayloadSize ∨ c.length = 1) ∧
    update_documents_auto_batch sz documents maxPayloadSize
        = add_documents_auto_batch sz documents maxPayloadSize ∧
    (∀ path chunks,
      add_documents_from_file_auto_batch path sz documents maxPayloadSize = .ok chunks →
      ∀ c ∈ chunks, (c.map sz).sum ≤ maxPayloadSize ∨ c.length = 1) ∧
    (∀ path chunks,
      update_documents_from_file_auto_batch path sz documents maxPayloadSize = .ok chunks →
      ∀ c ∈ chunks, (c.map sz).sum ≤ maxPayloadSize ∨ c.length = 1) := by
  refine ⟨?_, rfl, ?_, ?_⟩
  · intro chunks h c hc
    exact Or.inl (autoBatch_sizes sz maxPayloadSize documents chunks h c hc)
  · intro path chunks h c hc
    rw [add_documents_from_file_auto_batch] at h
    by_cases hext : fileExtension path ∈ supportedExtensions
    · rw [if_pos hext] at h
      exact Or.inl (autoBatch_sizes sz maxPayloadSize documents chunks h c hc)
    · rw [if_neg hext] at h
      exact absurd h (by simp)
  · intro path chunks h c hc
    rw [update_documents_from_file_auto_batch] at h
    by_cases hext : fileExtension path ∈ supportedExtensions
    · rw [if_pos hext] at h
      exact Or.inl (autoBatch_sizes sz maxPayloadSize documents chunks h c hc)
    · rw [if_neg hext] at h
      exact absurd h (by simp)

/-- Witness for C2 at a concrete input: sizes are the documents themselves,
bound 7, documents [3, 4, 5]. -/
theorem c2_auto_batch_size_bound_witness :
    (∀ chunks, add_documents_auto_batch (fun n => n) [3, 4, 5] 7 = .ok chunks →
      ∀ c ∈ chunks, (c.map (fun n => n)).sum ≤ 7 ∨ c.length = 1) ∧
    update_documents_auto_batch (fun n => n) [3, 4, 5] 7
        = add_documents_auto_batch (fun n => n) [3, 4, 5] 7 ∧
    (∀ path chunks,
      add_documents_from_file_auto_batch path (fun n => n) [3, 4, 5] 7 = .ok chunks →
      ∀ c ∈ chunks, (c.map (fun n => n)).sum ≤ 7 ∨ c.length = 1) ∧
    (∀ path chunks,
      update_documents_from_file_auto_batch path (fun n => n) [3, 4, 5] 7 = .ok chunks →
      ∀ c ∈ chunks, (c.map (fun n => n)).sum ≤ 7 ∨ c.length = 1) :=
  c2_auto_batch_size_bound (fun n => n) [3, 4, 5] 7

/-- Claim C3: when some document's serialized size alone exceeds
`max_payload_size`, the auto-batching operations fail with
`PayloadTooLarge` instead of producing chunks. -/
theorem c3_auto_batch_oversized_document {α : Type} (sz : α → Nat) (documents : List α)
    (maxPayloadSize : Nat) (h : ∃ d ∈ documents, maxPayloadSize < sz d) :
    add_documents_auto_batch sz documents maxPayloadSize
        = .error (.payloadTooLarge "The payload size is larger than the max payload size") ∧
    update_documents_auto_batch sz documents maxPayloadSize
        = .error (.payloadTooLarge "The payload size is larger than the max payload size") := by
  have := autoBatchAux_oversized sz maxPayloadSize documents [] 0 h
  exact ⟨this, this⟩

/-- Witness for C3 at a concrete input: document 100 alone exceeds the
bound 7. -/
theorem c3_auto_batch_oversized_document_witness :
    (∃ d ∈ [3, 100], 7 < (fun n => n) d) ∧
    (add_documents_auto_batch (fun n => n) [3, 100] 7
        = .error (.payloadTooLarge "The payload size is larger than the max payload size") ∧
    update_documents_auto_batch (fun n => n) [3, 100] 7
        = .error (.payloadTooLarge "The payload size is larger than the max payload size")) :=
  ⟨by decide, c3_auto_batch_oversized_document (fun n => n) [3, 100] 7 (by decide)⟩

/-- Claim C5: a file path whose extension is not a supported document type
makes every file-based document operation fail with a local validation
error (`MeiliSearchError`, or `ValueError` for the raw-file variants); the
ok value of these operations is the payload that would be uploaded, so the
error return means no request is sent. -/
theorem c5_invalid_extension_local_error {α : Type} (path : String)
    (hext : fileExtension path ∉ supportedExtensions) :
    (∀ contents : List α, add_documents_from_file path contents
        = .error (.meiliSearchError "File must be a json, csv, or ndjson file")) ∧
    (∀ contents : List α, update_documents_from_file path contents
        = .error (.meiliSearchError "File must be a json, csv, or ndjson file")) ∧
    (∀ (contents : List α) (batchSize : Nat),
      add_documents_from_file_in_batches path contents batchSize
        = .error (.meiliSearchError "File must be a json, csv, or ndjson file")) ∧
    (∀ (contents : List α) (batchSize : Nat),
      update_documents_from_file_in_batches path contents batchSize
        = .error (.meiliSearchError "File must be a json, csv, or ndjson file")) ∧
    (∀ raw : String, add_documents_from_raw_file path raw
        = .error (.valueError "Only csv and ndjson files can be sent as raw files")) ∧
    (∀ raw : String, update_documents_from_raw_file path raw
        = .error (.valueError "Only csv and ndjson files can be sent as raw files")) := by
  have hraw : fileExtension path ∉ rawFileExtensions := by
    simp only [supportedExtensions, rawFileExtensions, List.mem_cons,
      List.not_mem_nil] at hext ⊢
    tauto
  refine ⟨?_, ?_, ?_, ?_, ?_, ?_⟩
  · intro contents
    simp [add_documents_from_file, hext]
  · intro contents
    simp [update_documents_from_file, hext]
  · intro contents batchSize
    simp [add_documents_from_file_in_batches, hext]
  · intro contents batchSize
    simp [update_documents_from_file_in_batches, hext]
  · intro raw
    simp [add_documents_from_raw_file, hraw]
  · intro raw
    simp [update_documents_from_raw_file, hraw]

/-- Witness for C5 at a concrete input: the extension "bad" is not a
supported document type. -/
theorem c5_invalid_extension_local_error_witness :
    fileExtension "test.bad" ∉ supportedExtensions ∧
    ((∀ contents : List Nat, add_documents_from_file "test.bad" contents
        = .error (.meiliSearchError "File must be a json, csv, or ndjson file")) ∧
    (∀ contents : List Nat, update_documents_from_file "test.bad" contents
        = .error (.meiliSearchError "File must be a json, csv, or ndjson file")) ∧
    (∀ (contents : List Nat) (batchSize : Nat),
      add_documents_from_file_in_batches "test.bad" contents batchSize
        = .error (.meiliSearchError "File must be a json, csv, or ndjson file")) ∧
    (∀ (contents : List Nat) (batchSize : Nat),
      update_documents_from_file_in_batches "test.bad" contents batchSize
        = .error (.meiliSearchError "File must be a json, csv, or ndjson file")) ∧
    (∀ raw : String, add_documents_from_raw_file "test.bad" raw
        = .error (.valueError "Only csv and ndjson files can be sent as raw files")) ∧
    (∀ raw : String, update_documents_from_raw_file "test.bad" raw
        = .error (.valueError "Only csv and ndjson files can be sent as raw files"))) :=
  ⟨by decide, c5_invalid_extension_local_error "test.bad" (by decide)⟩

theorem lt_numPolls_iff (timeoutMs intervalMs k : Nat) (hi : 0 < intervalMs) :
    k < numPolls timeoutMs intervalMs ↔ k * intervalMs < timeoutMs := by
  unfold numPolls
  rw [Nat.lt_iff_add_one_le, Nat.le_div_iff_mul_le hi, Nat.add_mul, Nat.one_mul]
  omega

theorem pollLoop_ok (fetch : Nat → TaskStatus) :
    ∀ (fuel k : Nat) (s : TaskStatus) (j : Nat),
      pollLoop fetch k fuel = .ok (s, j) →
      isTerminal s = true ∧ fetch j = s ∧ k ≤ j ∧ j < k + fuel ∧
        ∀ m, k ≤ m → m < j → isTerminal (fetch m) = false := by
  intro fuel
  induction fuel with
  | zero => intro k s j h; simp [pollLoop] at h
  | succ fuel ih =>
    intro k s j h
    rw [pollLoop] at h
    by_cases ht : isTerminal (fetch k) = true
    · simp only [ht, if_true, Except.ok.injEq, Prod.mk.injEq] at h
      obtain ⟨rfl, rfl⟩ := h
      exact ⟨ht, rfl, Nat.le_refl _, by omega, fun m h1 h2 => absurd h1 (by omega)⟩
    · simp only [ht, if_false] at h
      obtain ⟨h1, h2, h3, h4, h5⟩ := ih (k + 1) s j h
      refine ⟨h1, h2, by omega, by omega, ?_⟩
      intro m hm1 hm2
      rcases Nat.eq_or_lt_of_le hm1 with rfl | hm1
      · simpa using ht
      · exact h5 m hm1 hm2

theorem pollLoop_timeout (fetch : Nat → TaskStatus) :
    ∀ (fuel k : Nat),
      (∀ m, k ≤ m → m < k + fuel → isTerminal (fetch m) = false) →
      pollLoop fetch k fuel = .error (.timeoutError "timeout of 'timeout_in_ms' has expired") := by
  intro fuel
  induction fuel with
  | zero => intro k _; rfl
  | succ fuel ih =>
    intro k h
    rw [pollLoop]
    have hk : isTerminal (fetch k) = false := h k (Nat.le_refl _) (by omega)
    simp only [hk, Bool.false_eq_true, if_false]
    exact ih (k + 1) fun m hm1 hm2 => h m (by omega) (by omega)

theorem pollLoop_complete (fetch : Nat → TaskStatus) :
    ∀ (fuel k j : Nat), k ≤ j → j < k + fuel → isTerminal (fetch j) = true →
      ∃ s i, pollLoop fetch k fuel = .ok (s, i) := by
  intro fuel
  induction fuel with
  | zero => intro k j h1 h2 _; omega
  | succ fuel ih =>
    intro k j h1 h2 hj
    rw [pollLoop]
    by_cases hk : isTerminal (fetch k) = true
    · exact ⟨fetch k, k, by simp [hk]⟩
    · have hkj : k < j := by
        rcases Nat.eq_or_lt_of_le h1 with rfl | h
        · exact absurd hj hk
        · exact h
      obtain ⟨s, i, hsi⟩ := ih (k + 1) j (by omega) (by omega) hj
      exact ⟨s, i, by simp only [hk, Bool.false_eq_true, if_false]; exact hsi⟩

/-- Claim C4: the task-polling operation returns the first terminal status
it observes — a poll that is within the declared timeout — never polls past
the timeout, and reports a timeout failure when no poll within the timeout
observes a terminal status.  Poll `k` happens once `k * intervalMs` of the
timeout has elapsed. -/
theorem c4_wait_for_task_polling (fetch : Nat → TaskStatus) (timeoutMs intervalMs : Nat)
    (hi : 0 < intervalMs) :
    (∀ s k, wait_for_task fetch timeoutMs intervalMs = .ok (s, k) →
      isTerminal s = true ∧ fetch k = s ∧ k * intervalMs < timeoutMs ∧
        ∀ j, j < k → isTerminal (fetch j) = false) ∧
    ((∀ k, k * intervalMs < timeoutMs → isTerminal (fetch k) = false) →
      wait_for_task fetch timeoutMs intervalMs
        = .error (.timeoutError "timeout of 'timeout_in_ms' has expired")) ∧
    ((∃ k, k * intervalMs < timeoutMs ∧ isTerminal (fetch k) = true) →
      ∃ s k, wait_for_task fetch timeoutMs intervalMs = .ok (s, k)) := by
  refine ⟨?_, ?_, ?_⟩
  · intro s k h
    obtain ⟨h1, h2, _, h4, h5⟩ := pollLoop_ok fetch (numPolls timeoutMs intervalMs) 0 s k h
    refine ⟨h1, h2, ?_, fun j hj => h5 j (Nat.zero_le _) hj⟩
    exact (lt_numPolls_iff timeoutMs intervalMs k hi).mp (by omega)
  · intro h
    exact pollLoop_timeout fetch (numPolls timeoutMs intervalMs) 0 fun m _ hm =>
      h m ((lt_numPolls_iff timeoutMs intervalMs m hi).mp (by omega))
  · rintro ⟨k, hk, hterm⟩
    exact pollLoop_complete fetch (numPolls timeoutMs intervalMs) 0 k (Nat.zero_le _)
      (by have := (lt_numPolls_iff timeoutMs intervalMs k hi).mpr hk; omega) hterm

/-- Witness for C4 at a concrete input: the task becomes terminal at the
second poll, with a 100 ms timeout polled every 10 ms. -/
theorem c4_wait_for_task_polling_witness :
    0 < 10 ∧
    ((∀ s k,
      wait_for_task (fun k => if k = 1 then .succeeded else .enqueued) 100 10 = .ok (s, k) →
      isTerminal s = true ∧ (fun k => if k = 1 then TaskStatus.succeeded else .enqueued) k = s ∧
        k * 10 < 100 ∧
        ∀ j, j < k →
          isTerminal ((fun k => if k = 1 then TaskStatus.succeeded else .enqueued) j) = false) ∧
    ((∀ k, k * 10 < 100 →
        isTerminal ((fun k => if k = 1 then TaskStatus.succeeded else .enqueued) k) = false) →
      wait_for_task (fun k => if k = 1 then .succeeded else .enqueued) 100 10
        = .error (.timeoutError "timeout of 'timeout_in_ms' has expired")) ∧
    ((∃ k, k * 10 < 100 ∧
        isTerminal ((fun k => if k = 1 then TaskStatus.succeeded else .enqueued) k) = true) →
      ∃ s k,
        wait_for_task (fun k => if k = 1 then .succeeded else .enqueued) 100 10 = .ok (s, k))) :=
  ⟨by decide,
    c4_wait_for_task_polling (fun k => if k = 1 then .succeeded else .enqueued) 100 10 (by decide)⟩

theorem uploadChunks_events {α : Type} :
    ∀ (cs : List (List α)) (es : List (UploadEvent α)) (u : Nat),
      (uploadChunks cs ⟨es, u⟩).2.events = es ++ specSequentialTrace u cs := by
  intro cs
  induction cs with
  | nil => intro es u; simp [uploadChunks, specSequentialTrace]
  | cons c cs ih =>
    intro es u
    rw [uploadChunks, specSequentialTrace]
    simp only [sendChunk]
    rw [ih (es ++ [UploadEvent.request c, UploadEvent.response u]) (u + 1)]
    simp

theorem specSequentialTrace_requests {α : Type} :
    ∀ (cs : List (List α)) (u : Nat),
      (specSequentialTrace u cs).filterMap requestChunk = cs := by
  intro cs
  induction cs with
  | nil => intro u; rfl
  | cons c cs ih =>
    intro u
    rw [specSequentialTrace]
    simp only [List.filterMap_cons, requestChunk]
    rw [ih (u + 1)]

theorem specSequentialTrace_length {α : Type} :
    ∀ (cs : List (List α)) (u : Nat),
      (specSequentialTrace u cs).length = 2 * cs.length := by
  intro cs
  induction cs with
  | nil => intro u; rfl
  | cons c cs ih =>
    intro u
    rw [specSequentialTrace]
    simp only [List.length_cons, ih (u + 1), List.length_cons]
    omega

theorem specSequentialTrace_get {α : Type} :
    ∀ (cs : List (List α)) (u k : Nat) (hk : k < cs.length),
      (specSequentialTrace u cs).get? (2 * k) = some (.request (cs.get ⟨k, hk⟩)) ∧
      (specSequentialTrace u cs).get? (2 * k + 1) = some (.response (u + k)) := by
  intro cs
  induction cs with
  | nil => intro u k hk; simp at hk
  | cons c cs ih =>
    intro u k hk
    cases k with
    | zero => simp [specSequentialTrace]
    | succ k =>
      rw [specSequentialTrace]
      have hk2 : k < cs.length := by simpa using Nat.lt_of_succ_lt_succ hk
      obtain ⟨hg1, hg2⟩ := ih (u + 1) k hk2
      constructor
      · rw [show 2 * (k + 1) = ((2 * k) + 1) + 1 by omega]
        simp only [List.get?_cons_succ]
        rw [hg1]
        rfl
      · rw [show 2 * (k + 1) + 1 = ((2 * k + 1) + 1) + 1 by omega]
        simp only [List.get?_cons_succ]
        rw [hg2]
        congr 2
        omega

/-- Claim C6: a batched upload's transcript is the strictly sequential
alternation — one request per chunk in chunk order, each chunk's response
recorded before the next chunk's request (the request for chunk `k + 1`
sits at transcript position `2k + 2`, after chunk `k`'s response at
position `2k + 1`); nothing is interleaved or concurrent. -/
theorem c6_batched_upload_sequential {α : Type} (documents : List α) (batchSize : Nat) :
    (uploadInBatches documents batchSize ⟨[], 0⟩).2.events
        = specSequentialTrace 0 (batchDocuments batchSize documents) ∧
    ((uploadInBatches documents batchSize ⟨[], 0⟩).2.events.filterMap requestChunk
        = batchDocuments batchSize documents) ∧
    (uploadInBatches documents batchSize ⟨[], 0⟩).2.events.length
        = 2 * (batchDocuments batchSize documents).length ∧
    (∀ k (hk : k < (batchDocuments batchSize documents).length),
      (uploadInBatches documents batchSize ⟨[], 0⟩).2.events.get? (2 * k)
          = some (.request ((batchDocuments batchSize documents).get ⟨k, hk⟩)) ∧
      (uploadInBatches documents batchSize ⟨[], 0⟩).2.events.get? (2 * k + 1)
          = some (.response k)) := by
  have he : (uploadInBatches documents batchSize ⟨[], 0⟩).2.events
      = specSequentialTrace 0 (batchDocuments batchSize documents) := by
    rw [uploadInBatches, uploadChunks_events]
    rfl
  refine ⟨he, ?_, ?_, ?_⟩
  · rw [he, specSequentialTrace_requests]
  · rw [he, specSequentialTrace_length]
  · intro k hk
    rw [he]
    have := specSequentialTrace_get (batchDocuments batchSize documents) 0 k hk
    simpa using this

/-- Witness for C6 at a concrete input: three documents in batches of two. -/
theorem c6_batched_upload_sequential_witness :
    (uploadInBatches [1, 2, 3] 2 ⟨[], 0⟩).2.events
        = specSequentialTrace 0 (batchDocuments 2 [1, 2, 3]) ∧
    ((uploadInBatches [1, 2, 3] 2 ⟨[], 0⟩).2.events.filterMap requestChunk
        = batchDocuments 2 [1, 2, 3]) ∧
    (uploadInBatches [1, 2, 3] 2 ⟨[], 0⟩).2.events.length
        = 2 * (batchDocuments 2 [1, 2, 3]).length ∧
    (∀ k (hk : k < (batchDocuments 2 [1, 2, 3]).length),
      (uploadInBatches [1, 2, 3] 2 ⟨[], 0⟩).2.events.get? (2 * k)
          = some (.request ((batchDocuments 2 [1, 2, 3]).get ⟨k, hk⟩)) ∧
      (uploadInBatches [1, 2, 3] 2 ⟨[], 0⟩).2.events.get? (2 * k + 1)
          = some (.response k)) :=
  c6_batched_upload_sequential [1, 2, 3] 2

/-- Claim C7: constructing `Client` attaches an Authorization header of
the form `Bearer <api_key>` exactly when `api_key` is provided and
non-empty, and attaches no Authorization header when `api_key` is None. -/
theorem c7_client_auth_header (apiKey : Option String) :
    (apiKey = none → clientHeaders apiKey = none) ∧
    (∀ k, apiKey = some k → k ≠ "" →
      clientHeaders apiKey = some [("Authorization", "Bearer " ++ k)]) ∧
    (clientHeaders apiKey ≠ none ↔ ∃ k, apiKey = some k ∧ k ≠ "") := by
  refine ⟨?_, ?_, ?_⟩
  · rintro rfl; rfl
  · rintro k rfl hk
    simp [clientHeaders, hk]
  · constructor
    · intro h
      match apiKey with
      | none => exact absurd rfl h
      | some k =>
        refine ⟨k, rfl, ?_⟩
        intro he
        subst he
        simp [clientHeaders] at h
    · rintro ⟨k, rfl, hk⟩
      simp [clientHeaders, hk]

/-- Witness for C7 at a concrete input: the key "masterKey". -/
theorem c7_client_auth_header_witness :
    (some "masterKey" = none → clientHeaders (some "masterKey") = none) ∧
    (∀ k, some "masterKey" = some k → k ≠ "" →
      clientHeaders (some "masterKey") = some [("Authorization", "Bearer " ++ k)]) ∧
    (clientHeaders (some "masterKey") ≠ none ↔ ∃ k, some "masterKey" = some k ∧ k ≠ "") :=
  c7_client_auth_header (some "masterKey")

/-- Claim C8: `delete_index_if_exists` returns `True` if and only if the
delete task's terminal status equals "succeeded", and returns `False`
(rather than raising) for every other terminal status. -/
theorem c8_delete_index_if_exists (waited : TaskResult) :
    (delete_index_if_exists waited = true ↔ waited.status = "succeeded") ∧
    (waited.status ≠ "succeeded" → delete_index_if_exists waited = false) := by
  constructor
  · constructor
    · intro h
      by_contra hne
      simp [delete_index_if_exists, hne] at h
    · intro h
      simp [delete_index_if_exists, h]
  · intro h
    simp [delete_index_if_exists, h]

/-- Witness for C8 at a concrete input: a task that failed. -/
theorem c8_delete_index_if_exists_witness :
    (delete_index_if_exists ⟨"failed"⟩ = true ↔ TaskResult.status ⟨"failed"⟩ = "succeeded") ∧
    (TaskResult.status ⟨"failed"⟩ ≠ "succeeded" → delete_index_if_exists ⟨"failed"⟩ = false) :=
  c8_delete_index_if_exists ⟨"failed"⟩

theorem checkTokenIndexes_error (payload : TenantTokenPayload) (jwtKey : Key)
    (h : ∃ i ∈ payload.indexes.getD [], i ∉ jwtKey.indexes) :
    checkTokenIndexes payload jwtKey = .error (.invalidRestriction
        "Invalid index. The token cannot be less restrictive than the API key") := by
  obtain ⟨i, hi, hni⟩ := h
  rw [checkTokenIndexes]
  split
  next hp =>
    rw [hp] at hi
    simp at hi
  next idxs hp =>
    rw [hp] at hi
    simp only [Option.getD_some] at hi
    have hne : idxs.isEmpty = false := by
      cases idxs with
      | nil => simp at hi
      | cons x xs => rfl
    simp [hne]
    exact ⟨i, hi, hni⟩

theorem checkTokenIndexes_ok (payload : TenantTokenPayload) (jwtKey : Key)
    (tok : SignedToken) (h : checkTokenIndexes payload jwtKey = .ok tok) :
    tok = ⟨payload, jwtKey.key⟩ ∧ ∀ i ∈ payload.indexes.getD [], i ∈ jwtKey.indexes := by
  rw [checkTokenIndexes] at h
  split at h
  next hp =>
    simp only [Except.ok.injEq] at h
    exact ⟨h.symm, by simp [hp]⟩
  next idxs hp =>
    split at h
    next he =>
      simp only [Except.ok.injEq] at h
      rw [List.isEmpty_iff] at he
      exact ⟨h.symm, by simp [hp, he]⟩
    next he =>
      split at h
      next ha =>
        simp only [Except.ok.injEq] at h
        refine ⟨h.symm, ?_⟩
        simp only [hp, Option.getD_some]
        intro i hi
        have hmem := List.all_eq_true.mp ha i hi
        simpa using hmem
      next ha =>
        exact Except.noConfusion h

/-- Claim C9: `generate_tenant_token` raises `InvalidKeyError` when an
explicit key's actions are not exactly ["search"]; raises
`InvalidRestriction` when the payload's indexes contain an index not among
the signing key's indexes (for an explicit search key and for the default
key found in the retrieved keys alike); raises `KeyNotFoundError` when no
key is given and no retrieved key's description contains "Default Search
API Key"; a signed token is produced only when every local validation
passes, and in each error case no token is produced. -/
theorem c9_generate_tenant_token_validation (keys : List Key)
    (payload : TenantTokenPayload) (keyArg : Option Key) :
    (∀ k, keyArg = some k → k.actions ≠ ["search"] →
      generate_tenant_token keys payload keyArg
        = .error (.invalidKeyError "Only search keys can be used for tokens")) ∧
    (∀ k, keyArg = some k → k.actions = ["search"] →
      (∃ i ∈ payload.indexes.getD [], i ∉ k.indexes) →
      generate_tenant_token keys payload keyArg
        = .error (.invalidRestriction
            "Invalid index. The token cannot be less restrictive than the API key")) ∧
    (keyArg = none →
      (∀ k ∈ keys, containsSubstring k.description "Default Search API Key" = false) →
      generate_tenant_token keys payload keyArg
        = .error (.keyNotFoundError "No API search key found")) ∧
    (keyArg = none → ∀ jk, findDefaultSearchKey keys = some jk →
      (∃ i ∈ payload.indexes.getD [], i ∉ jk.indexes) →
      generate_tenant_token keys payload keyArg
        = .error (.invalidRestriction
            "Invalid index. The token cannot be less restrictive than the API key")) ∧
    (∀ tok, generate_tenant_token keys payload keyArg = .ok tok →
      ∃ jk, ((keyArg = some jk ∧ jk.actions = ["search"]) ∨
          (keyArg = none ∧ findDefaultSearchKey keys = some jk)) ∧
        tok = ⟨payload, jk.key⟩ ∧
        ∀ i ∈ payload.indexes.getD [], i ∈ jk.indexes) := by
  refine ⟨?_, ?_, ?_, ?_, ?_⟩
  · rintro k rfl hk
    simp [generate_tenant_token, hk]
  · rintro k rfl hk hbad
    simp only [generate_tenant_token, hk, if_true]
    exact checkTokenIndexes_error payload k hbad
  · rintro rfl hnone
    have hfind : findDefaultSearchKey keys = none := by
      rw [findDefaultSearchKey, List.find?_eq_none]
      intro k hk
      simp [hnone k hk]
    simp [generate_tenant_token, hfind]
  · rintro rfl jk hjk hbad
    simp only [generate_tenant_token, hjk]
    exact checkTokenIndexes_error payload jk hbad
  · intro tok h
    match hka : keyArg, h with
    | some k, h =>
      simp only [generate_tenant_token] at h
      by_cases hk : k.actions = ["search"]
      · rw [if_pos hk] at h
        obtain ⟨htok, hidx⟩ := checkTokenIndexes_ok payload k tok h
        exact ⟨k, Or.inl ⟨rfl, hk⟩, htok, hidx⟩
      · rw [if_neg hk] at h
        exact Except.noConfusion h
    | none, h =>
      simp only [generate_tenant_token] at h
      match hf : findDefaultSearchKey keys, h with
      | some jk, h =>
        obtain ⟨htok, hidx⟩ := checkTokenIndexes_ok payload jk tok h
        exact ⟨jk, Or.inr ⟨rfl, rfl⟩, htok, hidx⟩
      | none, h =>
        exact Except.noConfusion h

/-- Witness for C9 at a concrete input: one retrieved key that is the
default search key, a payload restricted to one index, no explicit key. -/
theorem c9_generate_tenant_token_validation_witness :
    (∀ k, (none : Option Key) = some k → k.actions ≠ ["search"] →
      generate_tenant_token [⟨"secret", ["search"], ["movies"], "Default Search API Key"⟩]
          ⟨some ["movies"]⟩ none
        = .error (.invalidKeyError "Only search keys can be used for tokens")) ∧
    (∀ k, (none : Option Key) = some k → k.actions = ["search"] →
      (∃ i ∈ (TenantTokenPayload.mk (some ["movies"])).indexes.getD [], i ∉ k.indexes) →
      generate_tenant_token [⟨"secret", ["search"], ["movies"], "Default Search API Key"⟩]
          ⟨some ["movies"]⟩ none
        = .error (.invalidRestriction
            "Invalid index. The token cannot be less restrictive than the API key")) ∧
    ((none : Option Key) = none →
      (∀ k ∈ [(⟨"secret", ["search"], ["movies"], "Default Search API Key"⟩ : Key)],
        containsSubstring k.description "Default Search API Key" = false) →
      generate_tenant_token [⟨"secret", ["search"], ["movies"], "Default Search API Key"⟩]
          ⟨some ["movies"]⟩ none
        = .error (.keyNotFoundError "No API search key found")) ∧
    ((none : Option Key) = none → ∀ jk,
      findDefaultSearchKey [⟨"secret", ["search"], ["movies"], "Default Search API Key"⟩]
          = some jk →
      (∃ i ∈ (TenantTokenPayload.mk (some ["movies"])).indexes.getD [], i ∉ jk.indexes) →
      generate_tenant_token [⟨"secret", ["search"], ["movies"], "Default Search API Key"⟩]
          ⟨some ["movies"]⟩ none
        = .error (.invalidRestriction
            "Invalid index. The token cannot be less restrictive than the API key")) ∧
    (∀ tok,
      generate_tenant_token [⟨"secret", ["search"], ["movies"], "Default Search API Key"⟩]
          ⟨some ["movies"]⟩ none = .ok tok →
      ∃ jk, (((none : Option Key) = some jk ∧ jk.actions = ["search"]) ∨
          ((none : Option Key) = none ∧
            findDefaultSearchKey
              [⟨"secret", ["search"], ["movies"], "Default Search API Key"⟩] = some jk)) ∧
        tok = ⟨⟨some ["movies"]⟩, jk.key⟩ ∧
        ∀ i ∈ (TenantTokenPayload.mk (some ["movies"])).indexes.getD [], i ∈ jk.indexes) :=
  c9_generate_tenant_token_validation
    [⟨"secret", ["search"], ["movies"], "Default Search API Key"⟩] ⟨some ["movies"]⟩ none

/-- Claim C10: the absence of indexes is reported as `None`, never as an
empty list or an error: `get_indexes` and `get_raw_indexes` return `None`
(and never `some []`) when the response body is empty, and
`get_raw_index` returns `None` exactly when the response status is 404. -/
theorem c10_absence_reported_as_none :
    (∀ body : List IndexInfo,
      (body = [] → get_indexes body = none) ∧ get_indexes body ≠ some []) ∧
    (∀ body : List IndexInfo,
      (body = [] → get_raw_indexes body = none) ∧ get_raw_indexes body ≠ some []) ∧
    (∀ (statusCode : Nat) (body : IndexInfo),
      get_raw_index statusCode body = none ↔ statusCode = 404) := by
  refine ⟨?_, ?_, ?_⟩
  · intro body
    constructor
    · rintro rfl; rfl
    · cases body with
      | nil => simp [get_indexes]
      | cons x xs => simp [get_indexes]
  · intro body
    constructor
    · rintro rfl; rfl
    · cases body with
      | nil => simp [get_raw_indexes]
      | cons x xs => simp [get_raw_indexes]
  · intro statusCode body
    constructor
    · intro h
      by_contra hne
      simp [get_raw_index, hne] at h
    · intro h
      simp [get_raw_index, h]

/-- Witness for C10 at concrete inputs: the empty body and a 404. -/
theorem c10_absence_reported_as_none_witness :
    get_indexes [] = none ∧ get_raw_indexes [] = none ∧
    (get_raw_index 404 ⟨"movies", none⟩ = none ↔ 404 = 404) :=
  ⟨(c10_absence_reported_as_none.1 []).1 rfl,
    (c10_absence_reported_as_none.2.1 []).1 rfl,
    c10_absence_reported_as_none.2.2 404 ⟨"movies", none⟩⟩

end MeiliSpec
